import Mathlib

/-!
Shallow embedding of `src/backend/back.js`: an Express + Mongoose TODO API
with JWT bearer authentication.  JavaScript strings are modelled as `List Char`,
the MongoDB collections as lists carried in an explicit `DB` state, and every
route handler as a pure function `DB → inputs → DB × Resp`.  JWT signing and
verification are modelled by a concrete injective serialization with an
executable parser, so that signature / expiry / malformed-token behaviour is
decidable.
-/

namespace Back

/-- JavaScript strings are modelled as lists of characters. -/
abbrev Str := List Char

/-- `SECRET_KEY` from `back.js` line 10 (the fallback literal; the env var is
out of scope). -/
def SECRET_KEY : Str := "your_secret_key".data

/-- Decoded JWT payload.  The only field the server ever signs is `userId`
(`jwt.sign({ userId: user._id }, ...)`, line 86); a signed payload may also
lack it, which we model with `Option`. -/
structure Payload where
  userId : Option Nat
deriving Repr, DecidableEq

/-- Unary serialization of a natural number (timestamps, ids) inside a token. -/
def encNat (n : Nat) : Str := List.replicate n 'x'

/-- Parser inverse of `encNat`. -/
def decNat (s : Str) : Option Nat :=
  if s.all (fun c => c == 'x') then some s.length else none

/-- Serialization of the optional `userId` field of a payload. -/
def encUid : Option Nat → Str
  | none => ['-']
  | some u => 'u' :: encNat u

/-- Parser inverse of `encUid`. -/
def decUid (s : Str) : Option (Option Nat) :=
  match s with
  | [] => none
  | c :: rest =>
    if c = '-' then (if rest = [] then some none else none)
    else if c = 'u' then (decNat rest).map some
    else none

/-- Split a string at its first `';'`: the part before it and the part after. -/
def breakSemi (s : Str) : Option (Str × Str) :=
  match s with
  | [] => none
  | c :: rest =>
    if c = ';' then some ([], rest)
    else (breakSemi rest).map (fun p => (c :: p.1, p.2))

/-- Model of the HMAC signature over the token body under a signing key. -/
def macOf (u : Option Nat) (e : Nat) (key : Str) : Str :=
  'm' :: (encUid u ++ encNat e ++ key)

/-- Model of `jwt.sign`: serialized token carrying the payload's `userId`,
the expiry timestamp `e` (seconds), and the signature under `key`. -/
def signToken (u : Option Nat) (e : Nat) (key : Str) : Str :=
  'j' :: (encUid u ++ ';' :: (encNat e ++ ';' :: macOf u e key))

/-- Structural parse of a candidate token string into payload `userId`,
expiry, and signature components; fails on any malformed string. -/
def parseToken (s : Str) : Option (Option Nat × Nat × Str) :=
  match s with
  | [] => none
  | c :: rest =>
    if c = 'j' then
      match breakSemi rest with
      | none => none
      | some (uidS, rest2) =>
        match breakSemi rest2 with
        | none => none
        | some (expS, mac) =>
          match decUid uidS, decNat expS with
          | some u, some e => some (u, e, mac)
          | _, _ => none
    else none

/-- Model of `jwt.verify(token, key)` at current time `now`: succeeds with the
decoded payload iff the string parses, its signature matches `key`, and it is
not expired; `none` models the thrown `JsonWebTokenError`/`TokenExpiredError`. -/
def verifyToken (s : Str) (key : Str) (now : Nat) : Option Payload :=
  match parseToken s with
  | none => none
  | some (u, e, mac) =>
    if mac = macOf u e key then
      if now < e then some ⟨u⟩ else none
    else none

/-- A stored `User` document (`UserSchema`, lines 27-31): `password` holds the
bcrypt hash. -/
structure User where
  _id : Nat
  username : Str
  password : Str
deriving Repr, DecidableEq

/-- A stored `Task` document (`TaskSchema`, lines 34-39).  `userId` is the
owner back-reference; it is optional in the schema. -/
structure Task where
  _id : Nat
  text : Str
  completed : Bool
  userId : Option Nat
deriving Repr, DecidableEq

/-- The persistent store: the two MongoDB collections plus id generators. -/
structure DB where
  users : List User
  tasks : List Task
  nextUserId : Nat
  nextTaskId : Nat
deriving Repr, DecidableEq

/-- JSON response bodies produced by the handlers. -/
inductive Body where
  | error (msg : Str)
  | message (msg : Str)
  | token (tok : Str)
  | tasks (ts : List Task)
  | task (tk : Task)
deriving Repr, DecidableEq

/-- An HTTP response: status code and JSON body. -/
structure Resp where
  status : Nat
  body : Body
deriving Repr, DecidableEq

/-- Model of `bcrypt.hash(p, 10)`: a one-way tag of the password. -/
def bhash (p : Str) : Str := 'h' :: p

/-- Model of `bcrypt.compare(p, stored)`: does `stored` hash `p`? -/
def bcompare (p stored : Str) : Bool := stored == bhash p

def missingFieldsMsg : Str := "Username and password are required".data
def usernameExistsMsg : Str := "Username already exists".data
def registeredMsg : Str := "User registered successfully".data
def invalidCredsMsg : Str := "Invalid username or password".data
def noTokenMsg : Str := "Access denied. No token provided.".data
def invalidTokenMsg : Str := "Invalid token".data
def taskRequiredMsg : Str := "Task text is required".data
def taskNotFoundMsg : Str := "Task not found".data
def taskDeletedMsg : Str := "Task deleted successfully".data

/-- Model of `newUser.save()` under the store's unique index on `username`
(`unique: true`, line 28): fails (duplicate-key error 11000) iff the username
is already present; otherwise appends the document. -/
def saveUser (db : DB) (w : User) : Option DB :=
  if db.users.any (fun x => x.username == w.username) then none
  else some { db with users := db.users ++ [w], nextUserId := db.nextUserId + 1 }

/-- `POST /register` (lines 42-70).  Missing or empty fields are falsy in JS,
hence both map to the 400 validation response; a duplicate username is detected
by the store's uniqueness constraint inside `saveUser`, with no pre-check. -/
def register (db : DB) (username password : Option Str) : DB × Resp :=
  match username, password with
  | some u, some p =>
    if u = [] ∨ p = [] then (db, ⟨400, .error missingFieldsMsg⟩)
    else
      match saveUser db ⟨db.nextUserId, u, bhash p⟩ with
      | none => (db, ⟨400, .error usernameExistsMsg⟩)
      | some db2 => (db2, ⟨201, .message registeredMsg⟩)
  | _, _ => (db, ⟨400, .error missingFieldsMsg⟩)

/-- `POST /login` (lines 73-92).  On success issues a token signed with
`SECRET_KEY` carrying the user's id and expiring in 1 hour
(`expiresIn: "1h"`, i.e. `now + 3600` seconds). -/
def login (db : DB) (username password : Option Str) (now : Nat) : DB × Resp :=
  match username, password with
  | some u, some p =>
    if u = [] ∨ p = [] then (db, ⟨400, .error missingFieldsMsg⟩)
    else
      match db.users.find? (fun x => x.username == u) with
      | none => (db, ⟨401, .error invalidCredsMsg⟩)
      | some w =>
        if bcompare p w.password then
          (db, ⟨200, .token (signToken (some w._id) (now + 3600) SECRET_KEY)⟩)
        else (db, ⟨401, .error invalidCredsMsg⟩)
  | _, _ => (db, ⟨400, .error missingFieldsMsg⟩)

/-- The `authenticate` middleware (lines 95-108): reads the literal
`authorization` header value; `if (!token)` is JS-falsy, so an absent header
and a present-but-empty header both take the `"Access denied. No token
provided."` branch.  Otherwise the header is passed as-is to `jwt.verify`,
and on success `decoded.userId` is exposed as `req.userId` downstream. -/
def authenticate (hdr : Option Str) (now : Nat) : Resp ⊕ Option Nat :=
  match hdr with
  | none => Sum.inl ⟨401, .error noTokenMsg⟩
  | some tok =>
    if tok = [] then Sum.inl ⟨401, .error noTokenMsg⟩
    else
      match verifyToken tok SECRET_KEY now with
      | none => Sum.inl ⟨401, .error invalidTokenMsg⟩
      | some p => Sum.inr p.userId

/-- `GET /tasks` (lines 111-119): `Task.find({ userId: req.userId })`. -/
def getTasks (db : DB) (hdr : Option Str) (now : Nat) : DB × Resp :=
  match authenticate hdr now with
  | Sum.inl r => (db, r)
  | Sum.inr uid =>
    (db, ⟨200, .tasks (db.tasks.filter (fun tk => tk.userId == uid))⟩)

/-- `POST /tasks` (lines 122-137): rejects falsy `text`, otherwise persists a
new task owned by `req.userId` (schema default `completed = false`) and
returns the created document. -/
def addTask (db : DB) (hdr : Option Str) (text : Option Str) (now : Nat) :
    DB × Resp :=
  match authenticate hdr now with
  | Sum.inl r => (db, r)
  | Sum.inr uid =>
    match text with
    | none => (db, ⟨400, .error taskRequiredMsg⟩)
    | some t =>
      if t = [] then (db, ⟨400, .error taskRequiredMsg⟩)
      else
        let newTask : Task := ⟨db.nextTaskId, t, false, uid⟩
        ({ db with tasks := db.tasks ++ [newTask],
                   nextTaskId := db.nextTaskId + 1 },
         ⟨201, .task newTask⟩)

/-- `DELETE /tasks/:id` (lines 140-156):
`Task.findOneAndDelete({ _id, userId: req.userId })` deletes the first (hence,
ids being unique, the only) task matching both id and owner; 404 otherwise. -/
def deleteTask (db : DB) (hdr : Option Str) (taskId : Nat) (now : Nat) :
    DB × Resp :=
  match authenticate hdr now with
  | Sum.inl r => (db, r)
  | Sum.inr uid =>
    match db.tasks.find? (fun tk => tk._id == taskId && tk.userId == uid) with
    | none => (db, ⟨404, .error taskNotFoundMsg⟩)
    | some _ =>
      ({ db with tasks :=
           db.tasks.eraseP (fun tk => tk._id == taskId && tk.userId == uid) },
       ⟨200, .message taskDeletedMsg⟩)

/-! ### Token serialization round-trip and soundness lemmas -/

theorem semi_not_mem_encNat (n : Nat) : ';' ∉ encNat n := by
  intro h
  rw [encNat, List.mem_replicate] at h
  exact absurd h.2 (by decide)

theorem semi_not_mem_encUid (u : Option Nat) : ';' ∉ encUid u := by
  cases u with
  | none => simp [encUid]
  | some v =>
    intro h
    rcases List.mem_cons.mp h with h1 | h2
    · exact absurd h1 (by decide)
    · exact semi_not_mem_encNat v h2

theorem breakSemi_append (a b : Str) (ha : ';' ∉ a) :
    breakSemi (a ++ ';' :: b) = some (a, b) := by
  induction a with
  | nil => simp [breakSemi]
  | cons c tl ih =>
    have hc : c ≠ ';' := fun h => ha (h ▸ List.mem_cons_self c tl)
    have htl : ';' ∉ tl := fun h => ha (List.mem_cons_of_mem c h)
    simp [breakSemi, hc, ih htl]

theorem breakSemi_eq_some (s a b : Str) (h : breakSemi s = some (a, b)) :
    s = a ++ ';' :: b := by
  induction s generalizing a with
  | nil => simp [breakSemi] at h
  | cons c tl ih =>
    rw [breakSemi] at h
    by_cases hc : c = ';'
    · rw [if_pos hc] at h
      simp only [Option.some.injEq, Prod.mk.injEq] at h
      subst hc
      rw [← h.1, ← h.2]
      rfl
    · rw [if_neg hc] at h
      cases htl : breakSemi tl with
      | none => rw [htl] at h; simp at h
      | some p =>
        obtain ⟨p1, p2⟩ := p
        simp only [htl, Option.map_some', Option.some.injEq, Prod.mk.injEq] at h
        obtain ⟨h1, h2⟩ := h
        subst h1
        subst h2
        rw [List.cons_append]
        rw [ih p1 htl]

theorem decNat_encNat (n : Nat) : decNat (encNat n) = some n := by
  rw [decNat, if_pos]
  · simp [encNat]
  · rw [List.all_eq_true]
    intro c hc
    rw [encNat, List.mem_replicate] at hc
    simp [hc.2]

theorem decNat_eq_some (s : Str) (n : Nat) (h : decNat s = some n) :
    s = encNat n := by
  rw [decNat] at h
  by_cases hall : s.all (fun c => c == 'x')
  · rw [if_pos hall] at h
    simp only [Option.some.injEq] at h
    rw [encNat, ← h]
    rw [List.eq_replicate_iff]
    refine ⟨rfl, fun b hb => ?_⟩
    rw [List.all_eq_true] at hall
    simpa using hall b hb
  · rw [if_neg hall] at h; exact absurd h (by simp)

theorem decUid_encUid (u : Option Nat) : decUid (encUid u) = some u := by
  cases u with
  | none => rfl
  | some v => simp [encUid, decUid, decNat_encNat]

theorem decUid_eq_some (s : Str) (u : Option Nat) (h : decUid s = some u) :
    s = encUid u := by
  cases s with
  | nil => simp [decUid] at h
  | cons c rest =>
    rw [decUid] at h
    by_cases hc : c = '-'
    · rw [if_pos hc] at h
      by_cases hr : rest = []
      · rw [if_pos hr] at h
        simp only [Option.some.injEq] at h
        subst hc; subst hr; rw [← h]; rfl
      · rw [if_neg hr] at h; exact absurd h (by simp)
    · rw [if_neg hc] at h
      by_cases hu : c = 'u'
      · rw [if_pos hu] at h
        cases hd : decNat rest with
        | none => rw [hd] at h; simp at h
        | some n =>
          rw [hd] at h
          simp only [Option.map_some', Option.some.injEq] at h
          subst hu
          rw [← h, encUid, decNat_eq_some rest n hd]
      · rw [if_neg hu] at h; exact absurd h (by simp)

theorem parseToken_signToken (u : Option Nat) (e : Nat) (key : Str) :
    parseToken (signToken u e key) = some (u, e, macOf u e key) := by
  simp [signToken, parseToken, breakSemi_append _ _ (semi_not_mem_encUid u),
    breakSemi_append _ _ (semi_not_mem_encNat e), decUid_encUid, decNat_encNat]

theorem parseToken_eq_some (s : Str) (u : Option Nat) (e : Nat) (mac : Str)
    (h : parseToken s = some (u, e, mac)) :
    s = 'j' :: (encUid u ++ ';' :: (encNat e ++ ';' :: mac)) := by
  cases s with
  | nil => simp [parseToken] at h
  | cons c rest =>
    rw [parseToken] at h
    by_cases hc : c = 'j'
    · rw [if_pos hc] at h
      cases h1 : breakSemi rest with
      | none => simp only [h1] at h; exact Option.noConfusion h
      | some p1 =>
        obtain ⟨uidS, rest2⟩ := p1
        cases h2 : breakSemi rest2 with
        | none => simp only [h1, h2] at h; exact Option.noConfusion h
        | some p2 =>
          obtain ⟨expS, mac2⟩ := p2
          cases h3 : decUid uidS with
          | none => simp only [h1, h2, h3] at h; exact Option.noConfusion h
          | some u2 =>
            cases h4 : decNat expS with
            | none =>
              simp only [h1, h2, h3, h4] at h
              exact Option.noConfusion h
            | some e2 =>
              simp only [h1, h2, h3, h4, Option.some.injEq,
                Prod.mk.injEq] at h
              obtain ⟨hu, he, hm⟩ := h
              subst hc
              rw [breakSemi_eq_some rest uidS rest2 h1,
                breakSemi_eq_some rest2 expS mac2 h2,
                decUid_eq_some uidS u2 h3, decNat_eq_some expS e2 h4,
                hu, he, hm]
    · rw [if_neg hc] at h; exact Option.noConfusion h

theorem verifyToken_signToken (u : Option Nat) (e : Nat) (key : Str)
    (now : Nat) :
    verifyToken (signToken u e key) key now =
      if now < e then some ⟨u⟩ else none := by
  simp only [verifyToken, parseToken_signToken]
  simp

theorem verifyToken_eq_some_iff (s key : Str) (now : Nat) (p : Payload) :
    verifyToken s key now = some p ↔
      ∃ e, now < e ∧ s = signToken p.userId e key := by
  constructor
  · intro h
    rw [verifyToken] at h
    cases hp : parseToken s with
    | none => rw [hp] at h; exact Option.noConfusion h
    | some tr =>
      obtain ⟨u, e, mac⟩ := tr
      simp only [hp] at h
      by_cases hm : mac = macOf u e key
      · rw [if_pos hm] at h
        by_cases hlt : now < e
        · rw [if_pos hlt] at h
          simp only [Option.some.injEq] at h
          refine ⟨e, hlt, ?_⟩
          rw [← h]
          have := parseToken_eq_some s u e mac hp
          rw [signToken, ← hm]
          exact this
        · rw [if_neg hlt] at h; exact absurd h (by simp)
      · rw [if_neg hm] at h; exact absurd h (by simp)
  · rintro ⟨e, hlt, rfl⟩
    rw [verifyToken_signToken, if_pos hlt]

theorem verifyToken_eq_none (s key : Str) (now : Nat)
    (h : ∀ u e, s = signToken u e key → e ≤ now) :
    verifyToken s key now = none := by
  cases hv : verifyToken s key now with
  | none => rfl
  | some p =>
    obtain ⟨e, hlt, hs⟩ := (verifyToken_eq_some_iff s key now p).mp hv
    exact absurd (h p.userId e hs) (by omega)

theorem signToken_ne_nil (u : Option Nat) (e : Nat) (key : Str) :
    signToken u e key ≠ [] := by
  simp [signToken]

/-! ### Middleware and route-handler helper lemmas -/

theorem authenticate_missing (now : Nat) :
    authenticate none now = Sum.inl ⟨401, Body.error noTokenMsg⟩ := rfl

theorem authenticate_empty (now : Nat) :
    authenticate (some []) now = Sum.inl ⟨401, Body.error noTokenMsg⟩ := rfl

theorem authenticate_valid (u : Option Nat) (e now : Nat) (h : now < e) :
    authenticate (some (signToken u e SECRET_KEY)) now = Sum.inr u := by
  simp only [authenticate, if_neg (signToken_ne_nil u e SECRET_KEY),
    verifyToken_signToken, if_pos h]

theorem authenticate_bad (s : Str) (now : Nat) (hs : s ≠ [])
    (h : verifyToken s SECRET_KEY now = none) :
    authenticate (some s) now = Sum.inl ⟨401, Body.error invalidTokenMsg⟩ := by
  simp only [authenticate, if_neg hs, h]

theorem authenticate_expired (u : Option Nat) (e now : Nat) (h : e ≤ now) :
    authenticate (some (signToken u e SECRET_KEY)) now =
      Sum.inl ⟨401, Body.error invalidTokenMsg⟩ := by
  apply authenticate_bad _ _ (signToken_ne_nil u e SECRET_KEY)
  rw [verifyToken_signToken, if_neg (by omega)]

theorem getTasks_authFail (db : DB) (hdr : Option Str) (now : Nat) (r : Resp)
    (h : authenticate hdr now = Sum.inl r) : getTasks db hdr now = (db, r) := by
  simp only [getTasks, h]

theorem addTask_authFail (db : DB) (hdr txt : Option Str) (now : Nat) (r : Resp)
    (h : authenticate hdr now = Sum.inl r) :
    addTask db hdr txt now = (db, r) := by
  simp only [addTask, h]

theorem deleteTask_authFail (db : DB) (hdr : Option Str) (i now : Nat) (r : Resp)
    (h : authenticate hdr now = Sum.inl r) :
    deleteTask db hdr i now = (db, r) := by
  simp only [deleteTask, h]

theorem getTasks_valid (db : DB) (u : Option Nat) (e now : Nat) (h : now < e) :
    getTasks db (some (signToken u e SECRET_KEY)) now =
      (db, ⟨200, Body.tasks (db.tasks.filter (fun tk => tk.userId == u))⟩) := by
  simp only [getTasks, authenticate_valid u e now h]

theorem addTask_valid (db : DB) (u : Option Nat) (e now : Nat) (t : Str)
    (he : now < e) (ht : t ≠ []) :
    addTask db (some (signToken u e SECRET_KEY)) (some t) now =
      ({ db with tasks := db.tasks ++ [⟨db.nextTaskId, t, false, u⟩],
                 nextTaskId := db.nextTaskId + 1 },
       ⟨201, Body.task ⟨db.nextTaskId, t, false, u⟩⟩) := by
  simp only [addTask, authenticate_valid u e now he, if_neg ht]

theorem login_frame (db : DB) (a b : Option Str) (now : Nat) :
    (login db a b now).1 = db := by
  cases a with
  | none => rfl
  | some u =>
    cases b with
    | none => rfl
    | some p =>
      by_cases h : (u = [] ∨ p = [])
      · simp only [login, if_pos h]
      · simp only [login, if_neg h]
        cases db.users.find? (fun x => x.username == u) with
        | none => rfl
        | some w =>
          cases hb : bcompare p w.password <;> simp only [hb] <;> rfl

theorem getTasks_frame (db : DB) (hdr : Option Str) (now : Nat) :
    (getTasks db hdr now).1 = db := by
  rw [getTasks]
  cases authenticate hdr now <;> rfl

theorem register_frame (db : DB) (a b : Option Str)
    (h : (register db a b).2.status ≠ 201) : (register db a b).1 = db := by
  cases a with
  | none => rfl
  | some u =>
    cases b with
    | none => rfl
    | some p =>
      by_cases hemp : (u = [] ∨ p = [])
      · simp only [register, if_pos hemp]
      · cases hs : saveUser db ⟨db.nextUserId, u, bhash p⟩ with
        | none => simp only [register, if_neg hemp, hs]
        | some db2 =>
          exfalso
          apply h
          simp only [register, if_neg hemp, hs]

theorem addTask_frame (db : DB) (hdr txt : Option Str) (now : Nat)
    (h : (addTask db hdr txt now).2.status ≠ 201) :
    (addTask db hdr txt now).1 = db := by
  cases ha : authenticate hdr now with
  | inl r => simp only [addTask, ha]
  | inr uid =>
    cases txt with
    | none => simp only [addTask, ha]
    | some t =>
      by_cases ht : t = []
      · simp only [addTask, ha, if_pos ht]
      · exfalso
        apply h
        simp only [addTask, ha, if_neg ht]

theorem deleteTask_frame (db : DB) (hdr : Option Str) (i now : Nat)
    (h : (deleteTask db hdr i now).2.status ≠ 200) :
    (deleteTask db hdr i now).1 = db := by
  cases ha : authenticate hdr now with
  | inl r => simp only [deleteTask, ha]
  | inr uid =>
    cases hf : db.tasks.find? (fun tk => tk._id == i && tk.userId == uid) with
    | none => simp only [deleteTask, ha, hf]
    | some tk =>
      exfalso
      apply h
      simp only [deleteTask, ha, hf]

theorem login_ok (db : DB) (u p : Str) (w : User) (now : Nat)
    (hu : u ≠ []) (hp : p ≠ [])
    (hfind : db.users.find? (fun x => x.username == u) = some w)
    (hcmp : bcompare p w.password = true) :
    login db (some u) (some p) now =
      (db, ⟨200, Body.token (signToken (some w._id) (now + 3600) SECRET_KEY)⟩) := by
  have hnf : ¬(u = [] ∨ p = []) := by
    rintro (h | h)
    · exact hu h
    · exact hp h
  simp only [login, if_neg hnf, hfind, hcmp, if_true]

/-! ### Claim theorems -/

/-- C1: Ownership isolation.  With a valid token issued for user `a`, listing
tasks returns only tasks whose `userId` is `a` — hence none owned by a
distinct user `b` — and deleting a task id `i` owned by `b` fails with 404
`"Task not found"` and leaves the store (including `b`'s task) unchanged. -/
theorem ownership_isolation (db : DB) (a b i expA now : Nat)
    (hab : a ≠ b) (hexp : now < expA)
    (_hBtask : ∃ tk ∈ db.tasks, tk._id = i ∧ tk.userId = some b)
    (hid : ∀ tk ∈ db.tasks, tk._id = i → tk.userId = some b) :
    getTasks db (some (signToken (some a) expA SECRET_KEY)) now =
      (db, ⟨200, Body.tasks (db.tasks.filter (fun tk => tk.userId == some a))⟩) ∧
    (∀ tk ∈ db.tasks.filter (fun tk => tk.userId == some a),
       tk.userId ≠ some b) ∧
    deleteTask db (some (signToken (some a) expA SECRET_KEY)) i now =
      (db, ⟨404, Body.error taskNotFoundMsg⟩) := by
  refine ⟨getTasks_valid db (some a) expA now hexp, ?_, ?_⟩
  · intro tk htk
    rw [List.mem_filter] at htk
    have ha : tk.userId = some a := by simpa using htk.2
    rw [ha]
    simp [hab]
  · have hf : db.tasks.find?
        (fun tk => tk._id == i && tk.userId == some a) = none := by
      rw [List.find?_eq_none]
      intro tk htk
      by_cases hti : tk._id = i
      · have hbk := hid tk htk hti
        simp [hbk, Ne.symm hab]
      · simp [hti]
    simp only [deleteTask, authenticate_valid (some a) expA now hexp, hf]

/-- C1 witness: a store holding one task (id 5) owned by user 2; user 1's
valid token lists nothing of user 2's and cannot delete task 5. -/
theorem ownership_isolation_witness :
    (1 : Nat) ≠ 2 ∧
    getTasks ⟨[], [⟨5, "t".data, false, some 2⟩], 0, 6⟩
        (some (signToken (some 1) 1 SECRET_KEY)) 0 =
      (⟨[], [⟨5, "t".data, false, some 2⟩], 0, 6⟩,
       ⟨200, Body.tasks ([⟨5, "t".data, false, some 2⟩].filter
         (fun tk => tk.userId == some 1))⟩) ∧
    deleteTask ⟨[], [⟨5, "t".data, false, some 2⟩], 0, 6⟩
        (some (signToken (some 1) 1 SECRET_KEY)) 5 0 =
      (⟨[], [⟨5, "t".data, false, some 2⟩], 0, 6⟩,
       ⟨404, Body.error taskNotFoundMsg⟩) := by
  have h := ownership_isolation ⟨[], [⟨5, "t".data, false, some 2⟩], 0, 6⟩
    1 2 5 1 0 (by decide) (by decide)
    ⟨⟨5, "t".data, false, some 2⟩, by decide⟩ (by decide)
  exact ⟨by decide, h.1, h.2.2⟩

/-- C2: Credential verification gate.  A JS-falsy `Authorization` header —
absent, or present but empty, which line 97's `if (!token)` treats
identically — makes every protected route answer 401 `"Access denied. No
token provided."` with the store untouched; a non-empty header that is not
an unexpired token signed with `SECRET_KEY` makes every protected route
answer 401 `"Invalid token"`; only a valid token passes the gate, exposing
the embedded `userId` to the handler. -/
theorem credential_verification_gate (db : DB) (now : Nat) (txt : Option Str)
    (i : Nat) :
    (getTasks db none now = (db, ⟨401, Body.error noTokenMsg⟩) ∧
     addTask db none txt now = (db, ⟨401, Body.error noTokenMsg⟩) ∧
     deleteTask db none i now = (db, ⟨401, Body.error noTokenMsg⟩)) ∧
    (getTasks db (some []) now = (db, ⟨401, Body.error noTokenMsg⟩) ∧
     addTask db (some []) txt now = (db, ⟨401, Body.error noTokenMsg⟩) ∧
     deleteTask db (some []) i now = (db, ⟨401, Body.error noTokenMsg⟩)) ∧
    (∀ s : Str, s ≠ [] → (∀ u e, s = signToken u e SECRET_KEY → e ≤ now) →
      getTasks db (some s) now = (db, ⟨401, Body.error invalidTokenMsg⟩) ∧
      addTask db (some s) txt now = (db, ⟨401, Body.error invalidTokenMsg⟩) ∧
      deleteTask db (some s) i now = (db, ⟨401, Body.error invalidTokenMsg⟩)) ∧
    (∀ (u : Option Nat) (e : Nat), now < e →
      authenticate (some (signToken u e SECRET_KEY)) now = Sum.inr u) := by
  refine ⟨⟨getTasks_authFail _ _ _ _ (authenticate_missing now),
           addTask_authFail _ _ _ _ _ (authenticate_missing now),
           deleteTask_authFail _ _ _ _ _ (authenticate_missing now)⟩,
          ⟨getTasks_authFail _ _ _ _ (authenticate_empty now),
           addTask_authFail _ _ _ _ _ (authenticate_empty now),
           deleteTask_authFail _ _ _ _ _ (authenticate_empty now)⟩, ?_, ?_⟩
  · intro s hne hs
    have hb := authenticate_bad s now hne
      (verifyToken_eq_none s SECRET_KEY now hs)
    exact ⟨getTasks_authFail _ _ _ _ hb, addTask_authFail _ _ _ _ _ hb,
           deleteTask_authFail _ _ _ _ _ hb⟩
  · intro u e he
    exact authenticate_valid u e now he

/-- C2 witness: on the empty store, a missing header and an empty header are
rejected with the no-token 401, the garbage header `"q"` with the
invalid-token 401, while a valid token for user 7 passes the gate as
identity 7. -/
theorem credential_verification_gate_witness :
    getTasks ⟨[], [], 0, 0⟩ none 0 =
      (⟨[], [], 0, 0⟩, ⟨401, Body.error noTokenMsg⟩) ∧
    getTasks ⟨[], [], 0, 0⟩ (some []) 0 =
      (⟨[], [], 0, 0⟩, ⟨401, Body.error noTokenMsg⟩) ∧
    getTasks ⟨[], [], 0, 0⟩ (some ['q']) 0 =
      (⟨[], [], 0, 0⟩, ⟨401, Body.error invalidTokenMsg⟩) ∧
    authenticate (some (signToken (some 7) 1 SECRET_KEY)) 0 = Sum.inr (some 7) := by
  obtain ⟨h1, h2, h3, h4⟩ := credential_verification_gate ⟨[], [], 0, 0⟩ 0 none 0
  refine ⟨h1.1, h2.1, (h3 ['q'] (by decide) ?_).1, h4 (some 7) 1 (by decide)⟩
  intro u e he
  exfalso
  rw [signToken] at he
  injection he with hq _
  exact absurd hq (by decide)

/-- C3: Token expiry.  A successful login at time `now` issues exactly the
token signed with `SECRET_KEY` expiring at `now + 3600` (1 hour), and at any
time `later ≥ now + 3600` that same well-formed, correctly signed token is
rejected by all three protected routes with 401 `"Invalid token"`. -/
theorem token_expiry (db : DB) (u p : Str) (w : User) (now later i : Nat)
    (txt : Option Str) (hu : u ≠ []) (hp : p ≠ [])
    (hfind : db.users.find? (fun x => x.username == u) = some w)
    (hcmp : bcompare p w.password = true)
    (hlate : now + 3600 ≤ later) :
    login db (some u) (some p) now =
      (db, ⟨200, Body.token (signToken (some w._id) (now + 3600) SECRET_KEY)⟩) ∧
    getTasks db (some (signToken (some w._id) (now + 3600) SECRET_KEY)) later =
      (db, ⟨401, Body.error invalidTokenMsg⟩) ∧
    addTask db (some (signToken (some w._id) (now + 3600) SECRET_KEY)) txt later =
      (db, ⟨401, Body.error invalidTokenMsg⟩) ∧
    deleteTask db (some (signToken (some w._id) (now + 3600) SECRET_KEY)) i later =
      (db, ⟨401, Body.error invalidTokenMsg⟩) := by
  have hb := authenticate_expired (some w._id) (now + 3600) later hlate
  exact ⟨login_ok db u p w now hu hp hfind hcmp,
         getTasks_authFail _ _ _ _ hb, addTask_authFail _ _ _ _ _ hb,
         deleteTask_authFail _ _ _ _ _ hb⟩

/-- C3 witness: user `al` with stored hash of `pw` logs in at time 0 and
receives the token expiring at 3600; at time 3600 that token is rejected. -/
theorem token_expiry_witness :
    ([(⟨0, "al".data, "hpw".data⟩ : User)].find?
        (fun x => x.username == "al".data) = some ⟨0, "al".data, "hpw".data⟩) ∧
    bcompare "pw".data "hpw".data = true ∧
    login ⟨[⟨0, "al".data, "hpw".data⟩], [], 1, 0⟩
        (some "al".data) (some "pw".data) 0 =
      (⟨[⟨0, "al".data, "hpw".data⟩], [], 1, 0⟩,
       ⟨200, Body.token (signToken (some 0) (0 + 3600) SECRET_KEY)⟩) ∧
    getTasks ⟨[⟨0, "al".data, "hpw".data⟩], [], 1, 0⟩
        (some (signToken (some 0) (0 + 3600) SECRET_KEY)) 3600 =
      (⟨[⟨0, "al".data, "hpw".data⟩], [], 1, 0⟩,
       ⟨401, Body.error invalidTokenMsg⟩) := by
  have h := token_expiry ⟨[⟨0, "al".data, "hpw".data⟩], [], 1, 0⟩
    "al".data "pw".data ⟨0, "al".data, "hpw".data⟩ 0 3600 0 none
    (by decide) (by decide) (by decide) (by decide) (by decide)
  exact ⟨by decide, by decide, h.1, h.2.1⟩

/-- C4: Login failure non-leakage.  For non-empty credentials, an unknown
username and a known username with a non-matching password produce the one
identical 401 response `{"error": "Invalid username or password"}` — never a
404 — so the two failure causes are indistinguishable to the caller. -/
theorem login_failure_non_leakage (db : DB) (u p : Str) (now : Nat)
    (hu : u ≠ []) (hp : p ≠ [])
    (hfail : db.users.find? (fun x => x.username == u) = none ∨
      ∃ w, db.users.find? (fun x => x.username == u) = some w ∧
        bcompare p w.password = false) :
    login db (some u) (some p) now = (db, ⟨401, Body.error invalidCredsMsg⟩) := by
  have hnf : ¬(u = [] ∨ p = []) := by
    rintro (h | h)
    · exact hu h
    · exact hp h
  rcases hfail with hnone | ⟨w, hfind, hcmp⟩
  · simp [login, hnf, hnone]
  · simp [login, hnf, hfind, hcmp]

/-- C4 witness: against a store holding only user `al`, logging in as the
unknown `bo` and logging in as `al` with the wrong password `xx` return the
same 401 response. -/
theorem login_failure_non_leakage_witness :
    login ⟨[⟨0, "al".data, "hpw".data⟩], [], 1, 0⟩
        (some "bo".data) (some "pw".data) 0 =
      (⟨[⟨0, "al".data, "hpw".data⟩], [], 1, 0⟩,
       ⟨401, Body.error invalidCredsMsg⟩) ∧
    login ⟨[⟨0, "al".data, "hpw".data⟩], [], 1, 0⟩
        (some "al".data) (some "xx".data) 0 =
      (⟨[⟨0, "al".data, "hpw".data⟩], [], 1, 0⟩,
       ⟨401, Body.error invalidCredsMsg⟩) :=
  ⟨login_failure_non_leakage _ "bo".data "pw".data 0 (by decide) (by decide)
     (Or.inl (by decide)),
   login_failure_non_leakage _ "al".data "xx".data 0 (by decide) (by decide)
     (Or.inr ⟨⟨0, "al".data, "hpw".data⟩, by decide, by decide⟩)⟩

/-- C5: Duplicate registration.  When some stored user already carries the
requested username, registering again (any password) fails with 400
`"Username already exists"` — the duplicate is detected by the store's
uniqueness constraint inside `saveUser`, with no pre-check lookup in the
handler — and the store is returned unchanged. -/
theorem duplicate_registration (db : DB) (u p2 : Str) (w : User)
    (hmem : w ∈ db.users) (hname : w.username = u)
    (hu : u ≠ []) (hp : p2 ≠ []) :
    register db (some u) (some p2) =
      (db, ⟨400, Body.error usernameExistsMsg⟩) := by
  have hnf : ¬(u = [] ∨ p2 = []) := by
    rintro (h | h)
    · exact hu h
    · exact hp h
  have hsave : saveUser db ⟨db.nextUserId, u, bhash p2⟩ = none := by
    rw [saveUser, if_pos]
    rw [List.any_eq_true]
    exact ⟨w, hmem, by simp [hname]⟩
  simp only [register, if_neg hnf, hsave]

/-- C5 witness: re-registering `al` (present in the store) with a different
password fails with the conflict response and the identical store. -/
theorem duplicate_registration_witness :
    ((⟨0, "al".data, "hpw".data⟩ : User) ∈
      DB.users ⟨[⟨0, "al".data, "hpw".data⟩], [], 1, 0⟩) ∧
    register ⟨[⟨0, "al".data, "hpw".data⟩], [], 1, 0⟩
        (some "al".data) (some "zz".data) =
      (⟨[⟨0, "al".data, "hpw".data⟩], [], 1, 0⟩,
       ⟨400, Body.error usernameExistsMsg⟩) :=
  ⟨by decide, duplicate_registration _ "al".data "zz".data
     ⟨0, "al".data, "hpw".data⟩ (by decide) (by decide) (by decide) (by decide)⟩

/-- C6: Create postcondition.  Behind a valid token for owner `a`: a missing
or empty `text` yields 400 `"Task text is required"` with nothing persisted;
a non-empty `text` appends exactly one task, owned by `a`, with that text,
`completed = false`, and the store-generated id, and returns it with 201. -/
theorem create_postcondition (db : DB) (a e now : Nat) (he : now < e) :
    addTask db (some (signToken (some a) e SECRET_KEY)) none now =
      (db, ⟨400, Body.error taskRequiredMsg⟩) ∧
    addTask db (some (signToken (some a) e SECRET_KEY)) (some []) now =
      (db, ⟨400, Body.error taskRequiredMsg⟩) ∧
    (∀ t : Str, t ≠ [] →
      addTask db (some (signToken (some a) e SECRET_KEY)) (some t) now =
        ({ db with tasks := db.tasks ++ [⟨db.nextTaskId, t, false, some a⟩],
                   nextTaskId := db.nextTaskId + 1 },
         ⟨201, Body.task ⟨db.nextTaskId, t, false, some a⟩⟩)) := by
  have ha := authenticate_valid (some a) e now he
  refine ⟨?_, ?_, fun t ht => addTask_valid db (some a) e now t he ht⟩
  · simp only [addTask, ha]
  · simp [addTask, ha]

/-- C6 witness: on the empty store with a valid token for owner 4, a missing
text gives the 400, and text `m` creates the task ⟨0, "m", false, 4⟩. -/
theorem create_postcondition_witness :
    (0 : Nat) < 1 ∧
    addTask ⟨[], [], 0, 0⟩ (some (signToken (some 4) 1 SECRET_KEY)) none 0 =
      (⟨[], [], 0, 0⟩, ⟨400, Body.error taskRequiredMsg⟩) ∧
    addTask ⟨[], [], 0, 0⟩ (some (signToken (some 4) 1 SECRET_KEY))
        (some "m".data) 0 =
      (⟨[], [⟨0, "m".data, false, some 4⟩], 0, 1⟩,
       ⟨201, Body.task ⟨0, "m".data, false, some 4⟩⟩) := by
  have h := create_postcondition ⟨[], [], 0, 0⟩ 4 1 0 (by decide)
  exact ⟨by decide, h.1, h.2.2 "m".data (by decide)⟩

/-- C7 as frozen is false on the code: if the owner already has a
`"buy milk"` task, a second successful Create leaves List with two tasks of
text `"buy milk"` and `completed = false`, not exactly one. -/
theorem create_list_roundtrip_counterexample :
    (addTask ⟨[], [⟨0, "buy milk".data, false, some 0⟩], 0, 1⟩
        (some (signToken (some 0) 1 SECRET_KEY))
        (some "buy milk".data) 0).2.status = 201 ∧
    getTasks (addTask ⟨[], [⟨0, "buy milk".data, false, some 0⟩], 0, 1⟩
        (some (signToken (some 0) 1 SECRET_KEY))
        (some "buy milk".data) 0).1
        (some (signToken (some 0) 1 SECRET_KEY)) 0 =
      ((addTask ⟨[], [⟨0, "buy milk".data, false, some 0⟩], 0, 1⟩
          (some (signToken (some 0) 1 SECRET_KEY))
          (some "buy milk".data) 0).1,
       ⟨200, Body.tasks [⟨0, "buy milk".data, false, some 0⟩,
                         ⟨1, "buy milk".data, false, some 0⟩]⟩) ∧
    ¬ ([⟨0, "buy milk".data, false, some 0⟩,
        (⟨1, "buy milk".data, false, some 0⟩ : Task)].countP
         (fun tk => tk.text == "buy milk".data && tk.completed == false) = 1) := by
  decide

/-- C7 amended: for an owner with no pre-existing `"buy milk"` task, after
Create(owner, "buy milk") succeeds, List(owner) contains exactly one task
with text `"buy milk"` and `completed = false`. -/
theorem create_list_roundtrip (db : DB) (a e now : Nat) (he : now < e)
    (hfresh : ∀ tk ∈ db.tasks, tk.userId = some a →
      ¬(tk.text = "buy milk".data ∧ tk.completed = false)) :
    ∃ db2,
      addTask db (some (signToken (some a) e SECRET_KEY))
          (some "buy milk".data) now =
        (db2, ⟨201, Body.task ⟨db.nextTaskId, "buy milk".data, false, some a⟩⟩) ∧
      getTasks db2 (some (signToken (some a) e SECRET_KEY)) now =
        (db2, ⟨200, Body.tasks
          (db2.tasks.filter (fun tk => tk.userId == some a))⟩) ∧
      (db2.tasks.filter (fun tk => tk.userId == some a)).countP
        (fun tk => tk.text == "buy milk".data && tk.completed == false) = 1 := by
  refine ⟨{ db with
      tasks := db.tasks ++ [⟨db.nextTaskId, "buy milk".data, false, some a⟩],
      nextTaskId := db.nextTaskId + 1 },
    addTask_valid db (some a) e now "buy milk".data he (by decide),
    getTasks_valid _ (some a) e now he, ?_⟩
  dsimp only
  rw [List.filter_append, List.countP_append]
  have h0 : (db.tasks.filter (fun tk => tk.userId == some a)).countP
      (fun tk => tk.text == "buy milk".data && tk.completed == false) = 0 := by
    rw [List.countP_eq_zero]
    intro tk htk
    rw [List.mem_filter] at htk
    have hown : tk.userId = some a := by simpa using htk.2
    have := hfresh tk htk.1 hown
    simp only [Bool.and_eq_true, beq_iff_eq]
    tauto
  rw [h0]
  simp

/-- C7 amended witness: on the empty store, owner 0 creates `"buy milk"` and
its task list then contains exactly one such task. -/
theorem create_list_roundtrip_witness :
    (0 : Nat) < 1 ∧
    ∃ db2,
      addTask ⟨[], [], 0, 0⟩ (some (signToken (some 0) 1 SECRET_KEY))
          (some "buy milk".data) 0 =
        (db2, ⟨201, Body.task ⟨0, "buy milk".data, false, some 0⟩⟩) ∧
      getTasks db2 (some (signToken (some 0) 1 SECRET_KEY)) 0 =
        (db2, ⟨200, Body.tasks
          (db2.tasks.filter (fun tk => tk.userId == some 0))⟩) ∧
      (db2.tasks.filter (fun tk => tk.userId == some 0)).countP
        (fun tk => tk.text == "buy milk".data && tk.completed == false) = 1 :=
  ⟨by decide, create_list_roundtrip ⟨[], [], 0, 0⟩ 0 1 0 (by decide)
    (by simp)⟩

/-- C8: Literal token transport.  The middleware hands the raw header value
to verification unchanged: any header of the form `"Bearer " ++ s` — even
when `s` is a validly signed, unexpired token — fails verification and is
rejected 401 `"Invalid token"`, while the bare token passes the gate. -/
theorem literal_token_transport (now : Nat) (u : Option Nat) (e : Nat)
    (he : now < e) :
    (∀ s : Str, authenticate (some ("Bearer ".data ++ s)) now =
      Sum.inl ⟨401, Body.error invalidTokenMsg⟩) ∧
    authenticate (some ("Bearer ".data ++ signToken u e SECRET_KEY)) now =
      Sum.inl ⟨401, Body.error invalidTokenMsg⟩ ∧
    authenticate (some (signToken u e SECRET_KEY)) now = Sum.inr u := by
  exact ⟨fun s => rfl, rfl, authenticate_valid u e now he⟩

/-- C8 witness: prefixing user 3's perfectly valid token with `"Bearer "`
gets it rejected, while the bare token authenticates as user 3. -/
theorem literal_token_transport_witness :
    (0 : Nat) < 1 ∧
    authenticate (some ("Bearer ".data ++ signToken (some 3) 1 SECRET_KEY)) 0 =
      Sum.inl ⟨401, Body.error invalidTokenMsg⟩ ∧
    authenticate (some (signToken (some 3) 1 SECRET_KEY)) 0 =
      Sum.inr (some 3) :=
  ⟨by decide, (literal_token_transport 0 (some 3) 1 (by decide)).2.1,
   (literal_token_transport 0 (some 3) 1 (by decide)).2.2⟩

/-- C9: Error atomicity.  Login and List never write the store; Register,
Create and Delete return the store unchanged on every 400/401/404 response
(each error path precedes, or is the failure of, the single store write). -/
theorem error_atomicity (db : DB) (uname pword txt hdr : Option Str)
    (i now : Nat) :
    (login db uname pword now).1 = db ∧
    (getTasks db hdr now).1 = db ∧
    ((register db uname pword).2.status = 400 →
      (register db uname pword).1 = db) ∧
    ((addTask db hdr txt now).2.status = 400 ∨
       (addTask db hdr txt now).2.status = 401 →
      (addTask db hdr txt now).1 = db) ∧
    ((deleteTask db hdr i now).2.status = 401 ∨
       (deleteTask db hdr i now).2.status = 404 →
      (deleteTask db hdr i now).1 = db) := by
  refine ⟨login_frame db uname pword now, getTasks_frame db hdr now,
    ?_, ?_, ?_⟩
  · intro h
    exact register_frame db uname pword (by rw [h]; decide)
  · rintro (h | h) <;>
      exact addTask_frame db hdr txt now (by rw [h]; decide)
  · rintro (h | h) <;>
      exact deleteTask_frame db hdr i now (by rw [h]; decide)

/-- C9 witness: a 400 register (missing password), a failing login, a 401
create (no token) and a 401 delete (garbage token) all leave the empty store
exactly as it was. -/
theorem error_atomicity_witness :
    (register ⟨[], [], 0, 0⟩ (some "al".data) none).2.status = 400 ∧
    (register ⟨[], [], 0, 0⟩ (some "al".data) none).1 = ⟨[], [], 0, 0⟩ ∧
    (login ⟨[], [], 0, 0⟩ (some "al".data) (some "pw".data) 0).1 =
      ⟨[], [], 0, 0⟩ ∧
    (addTask ⟨[], [], 0, 0⟩ none (some "m".data) 0).2.status = 401 ∧
    (addTask ⟨[], [], 0, 0⟩ none (some "m".data) 0).1 = ⟨[], [], 0, 0⟩ ∧
    (deleteTask ⟨[], [], 0, 0⟩ (some ['q']) 3 0).2.status = 401 ∧
    (deleteTask ⟨[], [], 0, 0⟩ (some ['q']) 3 0).1 = ⟨[], [], 0, 0⟩ := by
  have h1 := error_atomicity ⟨[], [], 0, 0⟩ (some "al".data) none
    (some "m".data) none 3 0
  have h2 := error_atomicity ⟨[], [], 0, 0⟩ none none none (some ['q']) 3 0
  exact ⟨by decide, h1.2.2.1 (by decide), h1.1, by decide,
    h1.2.2.2.1 (Or.inr (by decide)), by decide,
    h2.2.2.2.2 (Or.inl (by decide))⟩

end Back
